import Mathlib

/-!
Shallow embedding of `ladybug/core.py` (classes `LBHeader`, `LBData`,
`DataList`) for checking the repository's natural-language specification.

Conventions of the embedding:
* numeric sample values are modelled as exact rationals (`ℚ`);
* Python exceptions are modelled with `Except PyError`;
* Python dictionaries keyed by small integers are modelled as association
  lists built in insertion order;
* the two external collaborators that `core.py` imports or receives from
  callers (the timestamp record and the `AnalysisPeriod` object) are modelled
  from the spec's boundary description (spec sections 3 and 6), since their
  code is not part of `core.py`;
* claims about object identity and aliasing are settled over an explicit
  heap model (`PyState`) in which `LBData` objects and Python list objects
  live at addresses.
-/

/-- Python exceptions raised by the embedded code. -/
inductive PyError where
  | valueError
  | typeError
  | attributeError
  | zeroDivisionError
deriving DecidableEq

/-- Modelled from the spec: the calendar timestamp collaborator (spec section 3)
is external to `core.py`; `core.py` only ever reads the fields `month`, `day`,
`hour` (hour of day) and `HOY` (hour of year), so the model is a record of
those four observations. -/
structure LBDateTime where
  month : Nat
  day : Nat
  hour : Nat
  HOY : Nat
deriving DecidableEq, Inhabited

/-- `LBData` (core.py lines 116-214): one numeric sample bound to a timestamp.
The `value` property setter (lines 139-142) replaces the stored numeric and is
the sole mutation point; in the pure model mutation is a functional update. -/
structure LBData where
  value : ℚ
  datetime : LBDateTime
deriving DecidableEq, Inhabited

/-- Modelled from the spec: the `AnalysisPeriod` collaborator (spec section 6)
is external to `core.py`; the embedded methods use only its inclusion test
`isTimeIncluded` and its whole-year flag `isAnnual`. -/
structure AnalysisPeriod where
  isAnnual : Bool
  isTimeIncluded : LBDateTime → Bool

/-- The `analysisPeriod` slot of a header: either the string sentinel
`"unknown"` (core.py line 28, 543), the string `"N/A"` (lines 586, 616), or an
actual period object (line 516). -/
inductive HeaderPeriod where
  | unknown
  | na
  | period (p : AnalysisPeriod)

/-- `LBHeader` (core.py lines 8-52). -/
structure LBHeader where
  city : String
  dataType : String
  unit : String
  frequency : String
  analysisPeriod : HeaderPeriod

/-- `LBHeader.duplicate` (core.py lines 31-33) is `copy.deepcopy`; on the pure
value model a deep copy is the value itself. -/
def LBHeader.duplicate (h : LBHeader) : LBHeader := h

/-- `DataList` (core.py lines 228-675), pure value model: the backing list
`self.__data` plus the owned header.  `DataList.__init__` runs the incoming
data through `checkInputData`, which maps `LBData.fromLBData` over it, and
`fromLBData` (lines 128-132) returns its argument unchanged, so on the value
level construction is the identity on the sample list. -/
structure DataList where
  data : List LBData
  header : LBHeader

/-- Python division (`sum(values) / len(data)` and friends): raises
`ZeroDivisionError` on a zero divisor, otherwise exact division. -/
def pydiv (a b : ℚ) : Except PyError ℚ :=
  if b = 0 then Except.error PyError.zeroDivisionError else Except.ok (a / b)

/-- Python `a % b` on numbers (used in filter expressions such as
`x % 5 == 0`): `a - b * floor(a / b)`. -/
def pymod (a b : ℚ) : ℚ := a - b * (Int.floor (a / b) : ℚ)

/-- `DataList.average` (core.py lines 277-281, a static method):
`sum(values) / len(data)`; an empty input divides by zero. -/
def DataList.average (data : List LBData) : Except PyError ℚ :=
  pydiv (data.map LBData.value).sum (data.length : ℚ)

/-- Left-to-right, non-overlapping replacement of `pat` by `rep` in a char
list, the semantics of Python's `str.replace` for a non-empty pattern.  The
fuel argument (instantiated with the list length) makes the recursion
structural, so the kernel can evaluate it. -/
def replaceFuel (pat rep : List Char) : Nat → List Char → List Char
  | 0, s => s
  | _ + 1, [] => []
  | fuel + 1, c :: rest =>
    if pat.isPrefixOf (c :: rest) then
      rep ++ replaceFuel pat rep fuel (List.drop pat.length (c :: rest))
    else c :: replaceFuel pat rep fuel rest

/-- Python `s.replace(pat, rep)` for a non-empty pattern. -/
def pyReplace (s pat rep : String) : String :=
  String.mk (replaceFuel pat.toList rep.toList s.toList.length s.toList)

/-- Python `s.lower()` on the ASCII statements the code handles. -/
def pyLower (s : String) : String :=
  String.mk (s.toList.map Char.toLower)

/-- The string `stStatement` of `checkInputStatement` (core.py lines 568-570):
lower-case the statement, then textually delete the substrings `and`, `or`,
`not`, `in`, `is`, in that order. -/
def stripKeywords (statement : String) : String :=
  pyReplace (pyReplace (pyReplace (pyReplace (pyReplace
    (pyLower statement) ("and") ("")) ("or") ("")) ("not") ("")) ("in") ("")) ("is") ("")

/-- `checkInputStatement` (core.py lines 567-577): collect the alphabetic
characters of the stripped statement into `l` and raise `ValueError` unless
`list(set(l)) == ['x']`.  That Python test holds exactly when `l` is non-empty
and every collected character is `x`, which is how the acceptance condition is
written here; `true` means the statement is accepted. -/
def checkInputStatement (statement : String) : Bool :=
  let l := (stripKeywords statement).toList.filter Char.isAlpha
  !l.isEmpty && l.all (fun c => c == 'x')

/-- `DataList.filterByConditionalStatement` (core.py lines 548-589).  The
source guards the statement with `checkInputStatement` and then evaluates
`eval(statement.replace('x', 'd.value'))` on each sample; the parameter
`pred` is the denotation of that evaluation, i.e. `pred v` is the truthiness
of the statement with the numeric value `v` substituted for `x`. -/
def DataList.filterByConditionalStatement (dl : DataList) (statement : String)
    (pred : ℚ → Bool) : Except PyError DataList :=
  if checkInputStatement statement then
    Except.ok { data := dl.data.filter (fun d => pred d.value),
                header := { dl.header.duplicate with analysisPeriod := HeaderPeriod.na } }
  else Except.error PyError.valueError

/-- `DataList.filterByAnalysisPeriod` (core.py lines 488-519): an absent or
whole-year period returns the receiver itself; otherwise keep the samples
whose timestamp passes the period's inclusion test, under a duplicated header
whose period is the filter period. -/
def DataList.filterByAnalysisPeriod (dl : DataList) (analysisPeriod : Option AnalysisPeriod) :
    DataList :=
  match analysisPeriod with
  | none => dl
  | some p =>
    if p.isAnnual then dl
    else
      { data := dl.data.filter (fun d => p.isTimeIncluded d.datetime),
        header := { dl.header.duplicate with analysisPeriod := HeaderPeriod.period p } }

/-- Python dictionary assignment `m[k] = v` on an integer-keyed dictionary,
modelled on an association list kept in insertion order. -/
def dictSet {α : Type} (m : List (Nat × α)) (k : Nat) (v : α) : List (Nat × α) :=
  match m with
  | [] => [(k, v)]
  | (k2, v2) :: rest => if k2 = k then (k, v) :: rest else (k2, v2) :: dictSet rest k v

/-- Python dictionary lookup `m[k]` (as an `Option`: `none` means `KeyError`). -/
def dictGet? {α : Type} (m : List (Nat × α)) (k : Nat) : Option α :=
  match m with
  | [] => none
  | (k2, v2) :: rest => if k2 = k then some v2 else dictGet? rest k

/-- `DataList.updateDataForHoursOfYear` (core.py lines 438-476).  After the
length check the source builds the dictionary `newValues : HOY -> value` and
then, for every sample whose `HOY` is a key, calls `data.updateValue(value)`.
`LBData` defines no method `updateValue` (its only mutation point is the
`value` property setter), so that call raises `AttributeError`, which the
surrounding `except KeyError` does not catch: the first matching sample aborts
the loop.  If no sample matches, every iteration takes the `KeyError` branch
and the method returns the receiver with an updated count of 0. -/
def DataList.updateDataForHoursOfYear (dl : DataList) (values : List ℚ)
    (hoursOfYear : List Nat) : Except PyError (DataList × Nat) :=
  if values.length ≠ hoursOfYear.length then Except.error PyError.valueError
  else
    let newValues := (values.zip hoursOfYear).foldl (fun m vh => dictSet m vh.2 vh.1) []
    if dl.data.any (fun d => (dictGet? newValues d.datetime.HOY).isSome) then
      Except.error PyError.attributeError
    else
      Except.ok (dl, 0)

/-- In `DataList.filterByPattern` (core.py line 603) the guard reads
`len(self.values)`: `values` is a method, not a property, so `self.values` is
a bound-method object and applying `len` to it raises `TypeError`. -/
def lenOfBoundMethod : Except PyError Nat := Except.error PyError.typeError

/-- `DataList.filterByPattern` (core.py lines 591-619): the length guard
evaluates `len(self.values)` first, which raises `TypeError` (see
`lenOfBoundMethod`), so the comparison, the error message, and the filtering
comprehension after it are unreachable. -/
def DataList.filterByPattern (dl : DataList) (patternList : List Bool) :
    Except PyError DataList :=
  lenOfBoundMethod.bind fun n =>
    if n ≠ patternList.length then Except.error PyError.valueError
    else
      Except.ok { data := (dl.data.enum.filter (fun p => patternList.getD p.1 false)).map Prod.snd,
                  header := { dl.header.duplicate with analysisPeriod := HeaderPeriod.na } }

/-- One iteration of the grouping loops (core.py lines 305-312, 340-349,
379-387): `if key not in m: m[key] = []` followed by `m[key].append(d)`,
modelled on the insertion-ordered association list. -/
def dictAppendItem (m : List (Nat × List LBData)) (k : Nat) (d : LBData) :
    List (Nat × List LBData) :=
  match m with
  | [] => [(k, [d])]
  | (k2, vs) :: rest =>
    if k2 = k then (k2, vs ++ [d]) :: rest else (k2, vs) :: dictAppendItem rest k d

/-- The body of the grouping loops: a sample whose key is outside the
requested range is skipped (`continue`), otherwise it is appended to its
key's bucket. -/
def groupStep (key : LBData → Nat) (keyRange : List Nat)
    (m : List (Nat × List LBData)) (d : LBData) : List (Nat × List LBData) :=
  if key d ∈ keyRange then dictAppendItem m (key d) d else m

/-- `DataList.groupDataByMonth` (core.py lines 283-315), acting on the
receiver's own data (the optional `userDataList` argument is not modelled;
the claims under check do not use it).  Default `monthRange` is `range(1,13)`,
i.e. `List.range' 1 12`. -/
def DataList.groupDataByMonth (dl : DataList) (monthRange : List Nat) :
    List (Nat × List LBData) :=
  dl.data.foldl (groupStep (fun d => d.datetime.month) monthRange) []

/-- `DataList.groupDataByHour` (core.py lines 354-390), acting on the
receiver's own data.  Default `hourRange` is `range(1,25)`, i.e.
`List.range' 1 24`. -/
def DataList.groupDataByHour (dl : DataList) (hourRange : List Nat) :
    List (Nat × List LBData) :=
  dl.data.foldl (groupStep (fun d => d.datetime.hour) hourRange) []

/-- Flattening a grouping result bucket by bucket, keeping each bucket's
internal order. -/
def flattenBuckets (m : List (Nat × List LBData)) : List LBData :=
  (m.map Prod.snd).flatten

/-! ## Heap model

Identity and aliasing claims are settled over an explicit heap: `LBData`
objects live at addresses into `PyState.objs`, Python list objects live at
addresses into `PyState.lists`, and a `DataListM` holds a reference
(`dataRef`) to its backing list object, mirroring `self.__data`. -/

/-- The mutable stores: the `LBData` heap and the Python-list heap.
Addresses are indices; reads out of range return defaults (they never occur
on the states built here). -/
structure PyState where
  objs : List LBData
  lists : List (List Nat)

/-- A `DataList` in the heap model: a reference to the backing list object
(`self.__data`) plus the owned header. -/
structure DataListM where
  dataRef : Nat
  header : LBHeader

/-- Contents of the list object at address `r`. -/
def PyState.listGet (s : PyState) (r : Nat) : List Nat :=
  s.lists.getD r []

/-- The `LBData` object at address `a`. -/
def PyState.objGet (s : PyState) (a : Nat) : LBData :=
  s.objs.getD a default

/-- Overwrite the contents of the list object at address `r` (in-place list
mutation). -/
def PyState.listSetContents (s : PyState) (r : Nat) (l : List Nat) : PyState :=
  { s with lists := s.lists.set r l }

/-- Allocate a fresh list object with contents `l`; its address is the old
length of the list heap. -/
def PyState.allocList (s : PyState) (l : List Nat) : PyState :=
  { s with lists := s.lists ++ [l] }

/-- The `LBData.value` property setter (core.py lines 139-142): overwrite the
stored numeric of the object at address `a`, leaving its timestamp alone. -/
def PyState.objSetValue (s : PyState) (a : Nat) (v : ℚ) : PyState :=
  { s with objs := s.objs.set a { s.objGet a with value := v } }

/-- `list.append` on the list object at address `r`. -/
def PyState.listAppend (s : PyState) (r : Nat) (a : Nat) : PyState :=
  s.listSetContents r (s.listGet r ++ [a])

/-- `del lst[i]` on the list object at address `r`. -/
def PyState.listDelete (s : PyState) (r : Nat) (i : Nat) : PyState :=
  s.listSetContents r ((s.listGet r).eraseIdx i)

/-- `lst[i] = a` on the list object at address `r`. -/
def PyState.listSetItem (s : PyState) (r : Nat) (i : Nat) (a : Nat) : PyState :=
  s.listSetContents r ((s.listGet r).set i a)

/-- `DataList.values` with `header=False` (core.py lines 239-249): `return
self.__data` hands back the backing list object itself, i.e. its address. -/
def DataListM.values (dl : DataListM) : Nat := dl.dataRef

/-- `DataList.__len__` (core.py lines 655-656). -/
def DataListM.lenM (s : PyState) (dl : DataListM) : Nat :=
  (s.listGet dl.dataRef).length

/-- `DataList.__getitem__` (core.py lines 658-659): the sample object (its
address) at index `i`. -/
def DataListM.getItemM (s : PyState) (dl : DataListM) (i : Nat) : Option Nat :=
  (s.listGet dl.dataRef).get? i

/-- `DataList.__iter__` (core.py lines 667-668): iteration yields the sample
objects (their addresses) in list order. -/
def DataListM.iterM (s : PyState) (dl : DataListM) : List Nat :=
  s.listGet dl.dataRef

/-- The sample values observed by iterating the series and reading `.value`. -/
def DataListM.iterValuesM (s : PyState) (dl : DataListM) : List ℚ :=
  (s.listGet dl.dataRef).map (fun a => (s.objGet a).value)

/-- Common shape of the filter methods in the heap model (core.py lines
512-517, 539-544, 582-587, 612-617): build the filtered comprehension list (a
fresh list object holding the same sample objects), then `DataList(...)`
allocates a second fresh list via `checkInputData`, whose elements
`LBData.fromLBData` passes through unchanged (core.py lines 128-132, 258-263);
the header is duplicated with the stated period. -/
def allocFiltered (s : PyState) (dl : DataListM) (keep : Nat → Bool)
    (hp : HeaderPeriod) : PyState × DataListM :=
  let filtered := (s.listGet dl.dataRef).filter keep
  let s1 := s.allocList filtered
  let s2 := s1.allocList filtered
  (s2, { dataRef := s1.lists.length, header := { dl.header.duplicate with analysisPeriod := hp } })

/-- `DataList.filterByHOYs` (core.py lines 521-546) in the heap model. -/
def DataListM.filterByHOYsM (s : PyState) (dl : DataListM) (HOYs : List Nat) :
    PyState × DataListM :=
  allocFiltered s dl (fun a => decide ((s.objGet a).datetime.HOY ∈ HOYs)) HeaderPeriod.unknown

/-- `DataList.filterByAnalysisPeriod` (core.py lines 488-519) in the heap
model: the absent/whole-year branches return the receiver itself. -/
def DataListM.filterByAnalysisPeriodM (s : PyState) (dl : DataListM)
    (ap : Option AnalysisPeriod) : PyState × DataListM :=
  match ap with
  | none => (s, dl)
  | some p =>
    if p.isAnnual then (s, dl)
    else allocFiltered s dl (fun a => p.isTimeIncluded (s.objGet a).datetime) (HeaderPeriod.period p)

/-- `DataList.filterByConditionalStatement` (core.py lines 548-589) in the
heap model; `pred` is the denotation of the evaluated statement as in the
pure model. -/
def DataListM.filterByConditionalStatementM (s : PyState) (dl : DataListM)
    (statement : String) (pred : ℚ → Bool) : Except PyError (PyState × DataListM) :=
  if checkInputStatement statement then
    Except.ok (allocFiltered s dl (fun a => pred (s.objGet a).value) HeaderPeriod.na)
  else Except.error PyError.valueError

/-- What actually holds of a filter result `res` produced from the series `dl`
in state `s`: the result's backing list is a fresh list object whose creation
leaves the source's backing list untouched, but the sample objects it holds
are the source's own sample objects. -/
def sharesSamplesFreshContainer (s : PyState) (dl : DataListM) (res : PyState × DataListM) : Prop :=
  (∀ a ∈ res.1.listGet res.2.dataRef, a ∈ s.listGet dl.dataRef) ∧
  res.2.dataRef ≠ dl.dataRef ∧
  res.1.listGet dl.dataRef = s.listGet dl.dataRef ∧
  res.1.objs = s.objs

/-! ## Concrete instances used by the closed theorems -/

/-- A default header (`LBHeader()` with no arguments, core.py lines 21-29). -/
def hdr0 : LBHeader :=
  ⟨("unknown"), ("unknown"), ("unknown"), ("unknown"), HeaderPeriod.unknown⟩

/-- A one-sample series: value 10 at hour of year 5. -/
def c1dl : DataList := ⟨[⟨10, ⟨1, 1, 5, 5⟩⟩], hdr0⟩

/-- A two-sample series for the pattern filter. -/
def c2dl : DataList := ⟨[⟨10, ⟨1, 1, 1, 1⟩⟩, ⟨20, ⟨1, 1, 2, 2⟩⟩], hdr0⟩

/-- Heap with a single sample object (value 10, hour of year 1) and a single
series backed by the list object at address 0 holding that sample. -/
def c3state : PyState := ⟨[⟨10, ⟨1, 1, 1, 1⟩⟩], [[0]]⟩

/-- The parent series of the aliasing counterexample. -/
def c3parent : DataListM := ⟨0, hdr0⟩

/-- The hour-of-year filter applied to the parent, keeping its only sample. -/
def c3filtered : PyState × DataListM := DataListM.filterByHOYsM c3state c3parent [1]

/-- Mutation of the first sample reached through the filtered series: Python
`filtered[0].value = 99`, using the `value` property setter. -/
def c3mutated : PyState :=
  (c3filtered.1).objSetValue ((c3filtered.1.listGet c3filtered.2.dataRef).getD 0 0) 99

/-- The four-sample series of the conditional-statement scenario. -/
def c5dl : DataList :=
  ⟨[⟨20, ⟨1, 1, 1, 1⟩⟩, ⟨25, ⟨1, 1, 2, 2⟩⟩, ⟨30, ⟨1, 1, 3, 3⟩⟩, ⟨35, ⟨1, 1, 4, 4⟩⟩], hdr0⟩

/-- The scenario statement. -/
def c5stmt : String := ("x > 25 and x % 5 == 0")

/-- Denotation of the scenario statement: truthiness of
`v > 25 and v % 5 == 0` at the numeric value `v`. -/
def c5pred (v : ℚ) : Bool := decide (25 < v) && decide (pymod v 5 = 0)

/-- Three samples with hour-of-day values 1, 13, 13. -/
def c8s0 : LBData := ⟨20, ⟨1, 1, 1, 1⟩⟩

/-- Second sample of the grouping scenario (hour of day 13). -/
def c8s1 : LBData := ⟨21, ⟨1, 1, 13, 13⟩⟩

/-- Third sample of the grouping scenario (hour of day 13). -/
def c8s2 : LBData := ⟨22, ⟨1, 2, 13, 37⟩⟩

/-- The grouping-scenario series. -/
def c8dl : DataList := ⟨[c8s0, c8s1, c8s2], hdr0⟩

/-- A concrete whole-year period. -/
def pAnnual : AnalysisPeriod := ⟨true, fun _ => true⟩

/-- A concrete non-annual period keeping only month-2 timestamps. -/
def pFeb : AnalysisPeriod := ⟨false, fun dt => decide (dt.month = 2)⟩

/-- A two-sample series for the period-filter witness, one sample in month 1
and one in month 2. -/
def c6dl : DataList := ⟨[⟨10, ⟨1, 1, 1, 1⟩⟩, ⟨20, ⟨2, 1, 1, 745⟩⟩], hdr0⟩

/-- Heap with two sample objects and one series for the backing-list claim. -/
def c10state : PyState := ⟨[⟨10, ⟨1, 1, 1, 1⟩⟩, ⟨20, ⟨1, 1, 2, 2⟩⟩], [[0, 1]]⟩

/-- The series of the backing-list witness. -/
def c10dl : DataListM := ⟨0, hdr0⟩

/-! ## Helper lemmas -/

theorem listGet_setContents_self (s : PyState) (r : Nat) (l : List Nat)
    (h : r < s.lists.length) : (s.listSetContents r l).listGet r = l := by
  simp [PyState.listGet, PyState.listSetContents, List.getD_eq_getElem?_getD,
    List.getElem?_set_self h]

theorem listGet_allocList_lt (s : PyState) (l : List Nat) (r : Nat)
    (h : r < s.lists.length) : (s.allocList l).listGet r = s.listGet r := by
  simp [PyState.listGet, PyState.allocList, List.getD_eq_getElem?_getD,
    List.getElem?_append_left h]

theorem listGet_allocList_self (s : PyState) (l : List Nat) :
    (s.allocList l).listGet s.lists.length = l := by
  simp [PyState.listGet, PyState.allocList, List.getD_eq_getElem?_getD,
    List.getElem?_concat_length]

theorem allocFiltered_spec (s : PyState) (dl : DataListM) (keep : Nat → Bool)
    (hp : HeaderPeriod) (h : dl.dataRef < s.lists.length) :
    sharesSamplesFreshContainer s dl (allocFiltered s dl keep hp) := by
  have hlen : ((s.allocList ((s.listGet dl.dataRef).filter keep)).lists).length
      = s.lists.length + 1 := by
    simp [PyState.allocList]
  have hdr : (allocFiltered s dl keep hp).2.dataRef
      = (s.allocList ((s.listGet dl.dataRef).filter keep)).lists.length := rfl
  have hst : (allocFiltered s dl keep hp).1
      = (s.allocList ((s.listGet dl.dataRef).filter keep)).allocList
          ((s.listGet dl.dataRef).filter keep) := rfl
  refine ⟨?_, ?_, ?_, ?_⟩
  · intro a ha
    rw [hst, hdr, listGet_allocList_self] at ha
    exact (List.mem_filter.mp ha).1
  · rw [hdr, hlen]
    omega
  · rw [hst, listGet_allocList_lt _ _ _ (by rw [hlen]; omega),
      listGet_allocList_lt _ _ _ h]
  · rw [hst]
    rfl

theorem dictGet?_dictAppendItem_self (m : List (Nat × List LBData)) (k : Nat) (d : LBData) :
    dictGet? (dictAppendItem m k d) k = some (((dictGet? m k).getD []) ++ [d]) := by
  induction m with
  | nil => simp [dictAppendItem, dictGet?]
  | cons kv rest ih =>
    obtain ⟨k2, vs⟩ := kv
    by_cases hk : k2 = k
    · subst hk
      simp [dictAppendItem, dictGet?]
    · simp [dictAppendItem, dictGet?, hk, ih]

theorem dictGet?_dictAppendItem_ne (m : List (Nat × List LBData)) (k k2 : Nat) (d : LBData)
    (h : k2 ≠ k) : dictGet? (dictAppendItem m k d) k2 = dictGet? m k2 := by
  induction m with
  | nil => simp [dictAppendItem, dictGet?, Ne.symm h]
  | cons kv rest ih =>
    obtain ⟨k3, vs⟩ := kv
    by_cases hk : k3 = k
    · subst hk
      simp [dictAppendItem, dictGet?, Ne.symm h]
    · by_cases hk2 : k3 = k2
      · subst hk2
        simp [dictAppendItem, dictGet?, hk]
      · simp [dictAppendItem, dictGet?, hk, hk2, ih]

theorem flattenBuckets_dictAppendItem (m : List (Nat × List LBData)) (k : Nat) (d : LBData) :
    List.Perm (flattenBuckets (dictAppendItem m k d)) (flattenBuckets m ++ [d]) := by
  induction m with
  | nil => simp [dictAppendItem, flattenBuckets]
  | cons kv rest ih =>
    obtain ⟨k2, vs⟩ := kv
    by_cases hk : k2 = k
    · subst hk
      rw [show dictAppendItem ((k2, vs) :: rest) k2 d = (k2, vs ++ [d]) :: rest from by
        simp [dictAppendItem]]
      simp only [flattenBuckets, List.map_cons, List.flatten_cons, List.append_assoc]
      exact List.Perm.append_left vs List.perm_append_comm
    · rw [show dictAppendItem ((k2, vs) :: rest) k d = (k2, vs) :: dictAppendItem rest k d from by
        simp [dictAppendItem, hk]]
      simp only [flattenBuckets, List.map_cons, List.flatten_cons, List.append_assoc]
      simp only [flattenBuckets] at ih
      exact List.Perm.append_left vs ih

theorem dictGet?_groupFold (key : LBData → Nat) (keyRange : List Nat) (ds : List LBData)
    (m : List (Nat × List LBData)) (k : Nat) :
    dictGet? (ds.foldl (groupStep key keyRange) m) k =
      match dictGet? m k with
      | some vs => some (vs ++ ds.filter (fun d => decide (key d = k ∧ k ∈ keyRange)))
      | none =>
        if ds.filter (fun d => decide (key d = k ∧ k ∈ keyRange)) = [] then none
        else some (ds.filter (fun d => decide (key d = k ∧ k ∈ keyRange))) := by
  induction ds generalizing m with
  | nil =>
    cases h : dictGet? m k <;> simp [h]
  | cons d ds ih =>
    simp only [List.foldl_cons]
    rw [ih (groupStep key keyRange m d)]
    by_cases hr : key d ∈ keyRange
    · by_cases hk : key d = k
      · have hstep : groupStep key keyRange m d = dictAppendItem m (key d) d := if_pos hr
        have hcons : (d :: ds).filter (fun d2 => decide (key d2 = k ∧ k ∈ keyRange))
            = d :: ds.filter (fun d2 => decide (key d2 = k ∧ k ∈ keyRange)) :=
          List.filter_cons_of_pos (by
            simp only [decide_eq_true_eq]
            exact ⟨hk, hk ▸ hr⟩)
        rw [hstep, hk, dictGet?_dictAppendItem_self, hcons]
        cases hm : dictGet? m k <;> simp [hm, List.append_assoc]
      · have hstep : groupStep key keyRange m d = dictAppendItem m (key d) d := if_pos hr
        have hcons : (d :: ds).filter (fun d2 => decide (key d2 = k ∧ k ∈ keyRange))
            = ds.filter (fun d2 => decide (key d2 = k ∧ k ∈ keyRange)) :=
          List.filter_cons_of_neg (by simp [hk])
        rw [hstep, dictGet?_dictAppendItem_ne m (key d) k d (fun hh => hk hh.symm), hcons]
    · have hstep : groupStep key keyRange m d = m := if_neg hr
      have hcons : (d :: ds).filter (fun d2 => decide (key d2 = k ∧ k ∈ keyRange))
          = ds.filter (fun d2 => decide (key d2 = k ∧ k ∈ keyRange)) :=
        List.filter_cons_of_neg (by
          simp only [decide_eq_true_eq]
          rintro ⟨h1, h2⟩
          exact hr (h1 ▸ h2))
      rw [hstep, hcons]

theorem dictGet?_groupFold_nil (key : LBData → Nat) (keyRange : List Nat) (ds : List LBData)
    (k : Nat) :
    dictGet? (ds.foldl (groupStep key keyRange) []) k =
      if k ∈ keyRange then
        (if ds.filter (fun d => decide (key d = k)) = [] then none
         else some (ds.filter (fun d => decide (key d = k))))
      else none := by
  rw [dictGet?_groupFold]
  by_cases hkr : k ∈ keyRange
  · have hP : ds.filter (fun d => decide (key d = k ∧ k ∈ keyRange))
        = ds.filter (fun d => decide (key d = k)) :=
      List.filter_congr (by intro d _; simp [hkr])
    rw [hP, if_pos hkr]
    rfl
  · have hP : ds.filter (fun d => decide (key d = k ∧ k ∈ keyRange)) = [] := by
      simp only [List.filter_eq_nil_iff, decide_eq_true_eq]
      rintro d _ ⟨h1, h2⟩
      exact hkr h2
    rw [hP, if_neg hkr]
    rfl

theorem flattenBuckets_groupFold (key : LBData → Nat) (keyRange : List Nat)
    (ds : List LBData) (m : List (Nat × List LBData)) :
    List.Perm (flattenBuckets (ds.foldl (groupStep key keyRange) m))
      (flattenBuckets m ++ ds.filter (fun d => decide (key d ∈ keyRange))) := by
  induction ds generalizing m with
  | nil =>
    simp only [List.foldl_nil, List.filter_nil, List.append_nil]
    exact List.Perm.refl _
  | cons d ds ih =>
    simp only [List.foldl_cons]
    by_cases hr : key d ∈ keyRange
    · have hstep : groupStep key keyRange m d = dictAppendItem m (key d) d := if_pos hr
      have hcons : (d :: ds).filter (fun d2 => decide (key d2 ∈ keyRange))
          = d :: ds.filter (fun d2 => decide (key d2 ∈ keyRange)) :=
        List.filter_cons_of_pos (by simp [hr])
      rw [hstep, hcons]
      have h1 := ih (dictAppendItem m (key d) d)
      have h2 : List.Perm
          (flattenBuckets (dictAppendItem m (key d) d)
            ++ ds.filter (fun d2 => decide (key d2 ∈ keyRange)))
          ((flattenBuckets m ++ [d]) ++ ds.filter (fun d2 => decide (key d2 ∈ keyRange))) :=
        List.Perm.append_right _ (flattenBuckets_dictAppendItem m (key d) d)
      refine (h1.trans h2).trans ?_
      rw [List.append_assoc]
      exact List.Perm.refl _
    · have hstep : groupStep key keyRange m d = m := if_neg hr
      have hcons : (d :: ds).filter (fun d2 => decide (key d2 ∈ keyRange))
          = ds.filter (fun d2 => decide (key d2 ∈ keyRange)) :=
        List.filter_cons_of_neg (by simp [hr])
      rw [hstep, hcons]
      exact ih m

theorem pymod_eval (a b : ℚ) (q : ℤ) (hq : a / b = (q : ℚ)) : pymod a b = a - b * (q : ℚ) := by
  rw [pymod, hq, Int.floor_intCast]

theorem c5pred_true (v : ℚ) (h1 : 25 < v) (h2 : pymod v 5 = 0) : c5pred v = true := by
  simp [c5pred, h1, h2]

theorem c5pred_false (v : ℚ) (h1 : ¬ 25 < v) : c5pred v = false := by
  simp [c5pred, h1]

/-! ## Claim theorems -/

/-- Claim C1 (code bug evidence): on a series whose only sample has hour of
year 5, `updateDataForHoursOfYear([7], [5])` raises `AttributeError` instead
of updating the sample, because the update loop calls the nonexistent method
`LBData.updateValue`; with a non-matching hour of year (3) every iteration
takes the `KeyError` branch, so the receiver is returned unchanged with an
updated count of 0, as the claim states for that half. -/
theorem updateDataForHoursOfYear_attributeError :
    DataList.updateDataForHoursOfYear c1dl [7] [5] = Except.error PyError.attributeError ∧
    DataList.updateDataForHoursOfYear c1dl [7] [3] = Except.ok (c1dl, 0) :=
  ⟨rfl, rfl⟩

/-- Claim C2 (code bug evidence): `filterByPattern` raises `TypeError` even on
a boolean mask of exactly the series length (2 samples, 2 mask entries),
because its guard applies `len` to the bound method `self.values`; the
documented filtering behaviour is unreachable. -/
theorem filterByPattern_typeError :
    DataList.filterByPattern c2dl [true, false] = Except.error PyError.typeError :=
  rfl

/-- Claim C3 counterexample: the claim that a filtered series shares no
mutable backing storage with its source is false.  Starting from a one-sample
parent series (value 10), filtering by hour of year keeps the sample, and
assigning 99 to the value of the sample reached through the filtered series
changes the parent's observed values from [10] to [99]. -/
theorem filter_aliasing_counterexample :
    DataListM.iterValuesM c3state c3parent = [10] ∧
    DataListM.iterValuesM c3mutated c3parent = [99] :=
  ⟨rfl, rfl⟩

/-- Claim C3 (amended): every filter operation allocates a fresh backing list
object (its address differs from the source's, and building it leaves the
source's backing list and the object heap untouched), but the sample objects
it holds are the source's own sample objects, so mutating a sample's value
through the filtered series is visible in the source.  Shown for the
hour-of-year filter, the non-annual period filter, and the accepted
conditional-statement filter. -/
theorem filter_shares_sample_objects (s : PyState) (dl : DataListM) (HOYs : List Nat)
    (p : AnalysisPeriod) (statement : String) (pred : ℚ → Bool)
    (h : dl.dataRef < s.lists.length) :
    sharesSamplesFreshContainer s dl (DataListM.filterByHOYsM s dl HOYs) ∧
    (p.isAnnual = false →
      sharesSamplesFreshContainer s dl (DataListM.filterByAnalysisPeriodM s dl (some p))) ∧
    (∀ res : PyState × DataListM,
      DataListM.filterByConditionalStatementM s dl statement pred = Except.ok res →
      sharesSamplesFreshContainer s dl res) := by
  refine ⟨allocFiltered_spec s dl _ _ h, fun hann => ?_, fun res hres => ?_⟩
  · simp only [DataListM.filterByAnalysisPeriodM, hann, Bool.false_eq_true, if_false]
    exact allocFiltered_spec s dl _ _ h
  · by_cases hc : checkInputStatement statement = true
    · simp only [DataListM.filterByConditionalStatementM, hc, if_true] at hres
      rw [← Except.ok.inj hres]
      exact allocFiltered_spec s dl _ _ h
    · simp only [DataListM.filterByConditionalStatementM, hc, if_false] at hres
      exact absurd hres (by simp)

/-- Witness for the amended claim C3, at the concrete aliasing scenario. -/
theorem filter_shares_sample_objects_witness :
    sharesSamplesFreshContainer c3state c3parent c3filtered := by
  have h := filter_shares_sample_objects c3state c3parent [1] pFeb c5stmt c5pred (by decide)
  exact h.1

/-- Claim C4: `filterByConditionalStatement` raises the invalid-predicate
`ValueError`, without evaluating the statement on any sample, for every
statement whose keyword-stripped form still contains an alphabetic character
other than `x`. -/
theorem checkInputStatement_rejects (dl : DataList) (statement : String) (pred : ℚ → Bool)
    (c : Char) (hc : c ∈ (stripKeywords statement).toList) (halpha : c.isAlpha = true)
    (hx : c ≠ 'x') :
    DataList.filterByConditionalStatement dl statement pred = Except.error PyError.valueError := by
  have hfalse : ¬ (checkInputStatement statement = true) := by
    intro htrue
    have hmem : c ∈ (stripKeywords statement).toList.filter Char.isAlpha :=
      List.mem_filter.mpr ⟨hc, halpha⟩
    have htrue2 : (!((stripKeywords statement).toList.filter Char.isAlpha).isEmpty
        && ((stripKeywords statement).toList.filter Char.isAlpha).all (fun c2 => c2 == 'x'))
        = true := htrue
    have hall := (Bool.and_eq_true _ _).mp htrue2 |>.2
    have hcx := List.all_eq_true.mp hall c hmem
    exact hx (by simpa using hcx)
  simp only [DataList.filterByConditionalStatement, if_neg hfalse]

/-- Witness for claim C4: the injection attempt `x; import(os)` is rejected
(after stripping, the characters `i`, `m`, `p`, `t`, `o`, `s` remain; the
witness exhibits `m`). -/
theorem checkInputStatement_rejects_witness :
    DataList.filterByConditionalStatement c1dl ("x; import(os)") (fun _ => true)
      = Except.error PyError.valueError :=
  checkInputStatement_rejects c1dl ("x; import(os)") (fun _ => true) 'm'
    (by decide) (by decide) (by decide)

/-- Claim C5: for every accepted statement, `filterByConditionalStatement`
keeps exactly the samples whose value satisfies the statement's denotation,
in input order (the result is a sublist of the input, and membership is
characterised by the predicate), under a duplicated header whose period is
"N/A". -/
theorem filterByConditionalStatement_keeps_truthy (dl : DataList) (statement : String)
    (pred : ℚ → Bool) (hc : checkInputStatement statement = true) :
    DataList.filterByConditionalStatement dl statement pred =
      Except.ok { data := dl.data.filter (fun d => pred d.value),
                  header := { dl.header with analysisPeriod := HeaderPeriod.na } } ∧
    (dl.data.filter (fun d => pred d.value)).Sublist dl.data ∧
    (∀ d : LBData, d ∈ dl.data.filter (fun d => pred d.value) ↔
      d ∈ dl.data ∧ pred d.value = true) := by
  refine ⟨?_, List.filter_sublist _, fun d => by simp⟩
  simp only [DataList.filterByConditionalStatement, LBHeader.duplicate, hc, if_true]

/-- Witness for claim C5: over values [20, 25, 30, 35] the statement
`x > 25 and x % 5 == 0` keeps exactly the samples with values 30 and 35. -/
theorem filterByConditionalStatement_keeps_truthy_witness :
    DataList.filterByConditionalStatement c5dl c5stmt c5pred =
      Except.ok { data := [⟨30, ⟨1, 1, 3, 3⟩⟩, ⟨35, ⟨1, 1, 4, 4⟩⟩],
                  header := { hdr0 with analysisPeriod := HeaderPeriod.na } } := by
  have h := (filterByConditionalStatement_keeps_truthy c5dl c5stmt c5pred (by decide)).1
  rw [h]
  have h20 : c5pred 20 = false := c5pred_false 20 (by norm_num)
  have h25 : c5pred 25 = false := c5pred_false 25 (by norm_num)
  have h30 : c5pred 30 = true :=
    c5pred_true 30 (by norm_num) (by rw [pymod_eval 30 5 6 (by norm_num)]; norm_num)
  have h35 : c5pred 35 = true :=
    c5pred_true 35 (by norm_num) (by rw [pymod_eval 35 5 7 (by norm_num)]; norm_num)
  simp [c5dl, hdr0, List.filter_cons, h20, h25, h30, h35]

/-- Claim C6: filtering by an absent period, or by one flagged as covering the
whole year, returns the receiver itself (shown both in the pure model and,
for object identity, in the heap model); any other period yields a new series
keeping exactly the samples passing the period's inclusion test (a sublist of
the input, membership characterised by the test), with a duplicated header
whose period is the filter period. -/
theorem filterByAnalysisPeriod_spec (dl : DataList) (p : AnalysisPeriod)
    (s : PyState) (dlm : DataListM) :
    DataList.filterByAnalysisPeriod dl none = dl ∧
    (p.isAnnual = true → DataList.filterByAnalysisPeriod dl (some p) = dl) ∧
    (p.isAnnual = false →
      DataList.filterByAnalysisPeriod dl (some p) =
        { data := dl.data.filter (fun d => p.isTimeIncluded d.datetime),
          header := { dl.header with analysisPeriod := HeaderPeriod.period p } }) ∧
    (dl.data.filter (fun d => p.isTimeIncluded d.datetime)).Sublist dl.data ∧
    (∀ d : LBData, d ∈ dl.data.filter (fun d => p.isTimeIncluded d.datetime) ↔
      d ∈ dl.data ∧ p.isTimeIncluded d.datetime = true) ∧
    DataListM.filterByAnalysisPeriodM s dlm none = (s, dlm) ∧
    (p.isAnnual = true → DataListM.filterByAnalysisPeriodM s dlm (some p) = (s, dlm)) := by
  refine ⟨rfl, fun hann => ?_, fun hann => ?_, List.filter_sublist _, fun d => by simp,
    rfl, fun hann => ?_⟩
  · simp [DataList.filterByAnalysisPeriod, hann]
  · simp [DataList.filterByAnalysisPeriod, hann, LBHeader.duplicate]
  · simp [DataListM.filterByAnalysisPeriodM, hann]

/-- Witness for claim C6: a whole-year period is a no-op on a concrete
two-sample series, and a February-only period keeps exactly the month-2
sample under the adjusted header. -/
theorem filterByAnalysisPeriod_spec_witness :
    DataList.filterByAnalysisPeriod c6dl (some pAnnual) = c6dl ∧
    DataList.filterByAnalysisPeriod c6dl (some pFeb) =
      { data := [⟨20, ⟨2, 1, 1, 745⟩⟩],
        header := { hdr0 with analysisPeriod := HeaderPeriod.period pFeb } } := by
  constructor
  · exact (filterByAnalysisPeriod_spec c6dl pAnnual c3state c3parent).2.1 rfl
  · have h := (filterByAnalysisPeriod_spec c6dl pFeb c3state c3parent).2.2.1 rfl
    rw [h]
    rfl

/-- Claim C7: `average` of a non-empty sample list is the arithmetic mean of
the samples' values, and `average` of the empty list fails with
`ZeroDivisionError` rather than returning a number. -/
theorem average_spec :
    (∀ data : List LBData, data ≠ [] →
      DataList.average data = Except.ok ((data.map LBData.value).sum / (data.length : ℚ))) ∧
    DataList.average [] = Except.error PyError.zeroDivisionError := by
  refine ⟨fun data hne => ?_, rfl⟩
  have h1 : data.length ≠ 0 := fun hlen => hne (List.length_eq_zero.mp hlen)
  have h0 : (data.length : ℚ) ≠ 0 := Nat.cast_ne_zero.mpr h1
  simp [DataList.average, pydiv, h0]

/-- Witness for claim C7: `average([10, 20, 30])` returns 20. -/
theorem average_spec_witness :
    DataList.average [⟨10, ⟨1, 1, 1, 1⟩⟩, ⟨20, ⟨1, 1, 2, 2⟩⟩, ⟨30, ⟨1, 1, 3, 3⟩⟩]
      = Except.ok 20 := by
  rw [average_spec.1 _ (by simp)]
  norm_num

/-- Claim C8: `groupDataByHour` maps a key to `some` bucket exactly when the
key is in the requested range and at least one sample has that hour of day,
the bucket being those samples in input order; keys outside the range or with
no matching sample get no entry.  On the concrete three-sample series with
hour-of-day values 1, 13, 13 and the default range `range(1, 25)`, the result
is exactly the two buckets 1 -> [sample0] and 13 -> [sample1, sample2]. -/
theorem groupDataByHour_spec :
    (∀ (dl : DataList) (hourRange : List Nat) (h : Nat),
      dictGet? (DataList.groupDataByHour dl hourRange) h =
        if h ∈ hourRange then
          (if dl.data.filter (fun d => decide (d.datetime.hour = h)) = [] then none
           else some (dl.data.filter (fun d => decide (d.datetime.hour = h))))
        else none) ∧
    DataList.groupDataByHour c8dl (List.range' 1 24) = [(1, [c8s0]), (13, [c8s1, c8s2])] := by
  refine ⟨fun dl hourRange h => ?_, rfl⟩
  exact dictGet?_groupFold_nil (fun d => d.datetime.hour) hourRange dl.data h

/-- Claim C9: flattening the buckets of `groupDataByMonth` (bucket by bucket,
keeping each bucket's internal order) is a permutation of the subsequence of
the original series whose months lie in the requested range, and each bucket
is exactly the samples of its month in their original relative order. -/
theorem groupDataByMonth_roundtrip (dl : DataList) (monthRange : List Nat) :
    List.Perm (flattenBuckets (DataList.groupDataByMonth dl monthRange))
      (dl.data.filter (fun d => decide (d.datetime.month ∈ monthRange))) ∧
    (∀ k : Nat, dictGet? (DataList.groupDataByMonth dl monthRange) k =
      if k ∈ monthRange then
        (if dl.data.filter (fun d => decide (d.datetime.month = k)) = [] then none
         else some (dl.data.filter (fun d => decide (d.datetime.month = k))))
      else none) := by
  constructor
  · have h := flattenBuckets_groupFold (fun d => d.datetime.month) monthRange dl.data []
    simpa [flattenBuckets] using h
  · exact fun k => dictGet?_groupFold_nil (fun d => d.datetime.month) monthRange dl.data k

/-- Claim C10: `values()` without the header returns the series' backing list
object itself, so in-place mutation of the returned list (append, delete,
replace) is immediately observable through the series' own length, indexing
and iteration. -/
theorem values_returns_backing_list (s : PyState) (dl : DataListM) (a i b : Nat)
    (h : dl.dataRef < s.lists.length) :
    DataListM.values dl = dl.dataRef ∧
    DataListM.iterM (PyState.listAppend s (DataListM.values dl) a) dl
      = DataListM.iterM s dl ++ [a] ∧
    DataListM.lenM (PyState.listAppend s (DataListM.values dl) a) dl
      = DataListM.lenM s dl + 1 ∧
    DataListM.getItemM (PyState.listAppend s (DataListM.values dl) a) dl (DataListM.lenM s dl)
      = some a ∧
    DataListM.iterM (PyState.listDelete s (DataListM.values dl) i) dl
      = (DataListM.iterM s dl).eraseIdx i ∧
    DataListM.iterM (PyState.listSetItem s (DataListM.values dl) i b) dl
      = (DataListM.iterM s dl).set i b := by
  have happ := listGet_setContents_self s dl.dataRef (s.listGet dl.dataRef ++ [a]) h
  have hdel := listGet_setContents_self s dl.dataRef ((s.listGet dl.dataRef).eraseIdx i) h
  have hset := listGet_setContents_self s dl.dataRef ((s.listGet dl.dataRef).set i b) h
  refine ⟨rfl, happ, ?_, ?_, hdel, hset⟩
  · show ((s.listSetContents dl.dataRef (s.listGet dl.dataRef ++ [a])).listGet dl.dataRef).length
      = (s.listGet dl.dataRef).length + 1
    rw [happ]
    simp
  · show ((s.listSetContents dl.dataRef (s.listGet dl.dataRef ++ [a])).listGet dl.dataRef).get?
      (s.listGet dl.dataRef).length = some a
    rw [happ, List.get?_eq_getElem?]
    exact List.getElem?_concat_length _ _

/-- Witness for claim C10: appending through the list returned by `values()`
grows the series itself by one element. -/
theorem values_returns_backing_list_witness :
    DataListM.lenM (PyState.listAppend c10state (DataListM.values c10dl) 1) c10dl
      = DataListM.lenM c10state c10dl + 1 :=
  (values_returns_backing_list c10state c10dl 1 0 0 (by decide)).2.2.1
